import Mathlib

/-!
Verification development for the md_planning core (md_planning/md_planning.py).

Conventions of the shallow embedding:
* Python floats are modelled as rationals (ℚ). All numeric values appearing in
  the repository's own tests (68.75, 0.125, 0.25, 550, 137.5, ...) are dyadic
  rationals on which Python's float arithmetic is exact, so the rational model
  agrees with the source on every computation we reason about.
* Calendar dates are modelled as integers (a day number); date differences and
  timedelta arithmetic become integer arithmetic. The concrete scenario below
  encodes 2022-09-NN as the integer NN.
* A Python function that can raise becomes an Option- or Except-valued
  function; an exception is `none` / `.error`.
-/

set_option maxRecDepth 100000

namespace MdPlanning

/-- Indicator of a Bool used as a multiplicative factor, as Python does when a
bool is multiplied into a float product. -/
def boolInd (b : Bool) : ℚ := if b then 1 else 0

/-! ### Character-level string primitives

Python string operations (`split`, `strip`, `endswith`, `in`, `float()`), taken
down to character lists so that every definition is kernel-executable. -/

/-- Python's s.split(sep) for a one-character separator: splits at every
occurrence, keeping empty pieces. -/
def charSplit (sep : Char) : List Char → List (List Char)
  | [] => [[]]
  | c :: t =>
    let r := charSplit sep t
    if c = sep then [] :: r
    else
      match r with
      | [] => [[c]]
      | h :: t2 => (c :: h) :: t2

/-- Python's s.split(sep) on strings (single-character separator). -/
def pySplit (s : String) (sep : Char) : List String :=
  (charSplit sep s.toList).map (fun cs => String.mk cs)

/-- Python's s.strip(): drop leading and trailing whitespace. -/
def pyStrip (s : String) : String :=
  String.mk (((s.toList.dropWhile Char.isWhitespace).reverse.dropWhile
      Char.isWhitespace).reverse)

/-- Python's `"," in s` membership test for a single character. -/
def pyContains (s : String) (c : Char) : Bool :=
  s.toList.contains c

/-- Python's s.endswith(suffix). -/
def pyEndsWith (s suffix : String) : Bool :=
  suffix.toList.isSuffixOf s.toList

/-- Helper of pyWhitespaceSplit: accumulates the current token (reversed). -/
def wsSplitAux (acc : List Char) : List Char → List (List Char)
  | [] => if acc.isEmpty then [] else [acc.reverse]
  | c :: t =>
    if c.isWhitespace then
      if acc.isEmpty then wsSplitAux [] t else acc.reverse :: wsSplitAux [] t
    else wsSplitAux (c :: acc) t

/-- Python's s.split() with no argument: split on whitespace runs, dropping
empty tokens. -/
def pyWhitespaceSplit (s : String) : List String :=
  (wsSplitAux [] s.toList).map (fun cs => String.mk cs)

/-- Parse a nonempty run of decimal digits as a natural number. -/
def digitsToNat? (cs : List Char) : Option Nat :=
  if cs.isEmpty then none
  else if cs.all Char.isDigit then
    some (cs.foldl (fun a c => a * 10 + (c.toNat - 48)) 0)
  else none

/-- Python's float() restricted to the plain decimal numerals that reach it in
this code base ("1", "0.5", "2.", ...): integer part, optional fractional part.
Anything else (in particular a resource name) fails, as float() raises. -/
def parseDecimal (s : String) : Option ℚ :=
  match charSplit '.' s.toList with
  | [a] => (digitsToNat? a).map (fun n => (n : ℚ))
  | [a, b] =>
    let ip : Option Nat := if a.isEmpty then some 0 else digitsToNat? a
    let fp : Option Nat := if b.isEmpty then some 0 else digitsToNat? b
    match ip, fp with
    | some n, some f =>
      if a.isEmpty ∧ b.isEmpty then none
      else some ((n : ℚ) + (f : ℚ) / ((10 : ℚ) ^ b.length))
    | _, _ => none
  | _ => none

/-! ### Unit Conversion Engine

The pint registry built at module load (UREG in the source): workhour = 1 hour,
workday = 8 workhour, workweek = 5 workday, workmonth = 4.33 workweek,
workquarter = 3 workmonth, each with its source-declared aliases. Every
work-time unit is a fixed number of workhours; `hoursPer` is that number. -/
def hoursPer (u : String) : Option ℚ :=
  if u = "hour" ∨ u = "workhour" ∨ u = "wh" ∨ u = "workhours" then some 1
  else if u = "workday" ∨ u = "wd" ∨ u = "workdays" then some 8
  else if u = "workweek" ∨ u = "ww" ∨ u = "workweeks" then some 40
  else if u = "workmonth" ∨ u = "wm" ∨ u = "workmonths" then some (866 / 5)
  else if u = "workquarter" ∨ u = "wq" ∨ u = "workquarters" then some (2598 / 5)
  else none

/-- The five supported work-time units, as named by the spec (§8). -/
def workUnits : List String :=
  ["workhour", "workday", "workweek", "workmonth", "workquarter"]

/-- A registered gantt Resource after GanttDrawer._register_resources: name,
price value and unit (res.price), optional batch size, vacation dates. -/
structure GResource where
  name : String
  priceValue : ℚ
  priceUnit : String
  batchSize : Option ℚ
  vacations : List Int
deriving Repr, DecidableEq

/-- Embeds _resource_convert (patched onto Resource as Resource.convert).
unit-priced: price / number_of_days / workday; batch-priced:
price / batch_size / number_of_days / workday; otherwise price / price_unit.
The resulting pint quantity is converted to 1 / unit, i.e. its magnitude is
multiplied by hoursPer unit / hoursPer (source unit). Failures (`none`) stand
for the source's exceptions: a missing number_of_days is interpolated as the
undefined unit None, a zero divisor raises ZeroDivisionError, an unknown price
unit raises UndefinedUnitError, a batch price without batch_size raises
KeyError. -/
def GResource.convert (res : GResource) (unit : String)
    (number_of_days : Option ℚ) : Option ℚ :=
  match hoursPer unit with
  | none => none
  | some target =>
    if res.priceUnit = "unit" then
      match number_of_days with
      | none => none
      | some n => if n = 0 then none else some (res.priceValue / n / 8 * target)
    else if res.priceUnit = "batch" then
      match res.batchSize, number_of_days with
      | some bs, some n =>
        if bs = 0 ∨ n = 0 then none
        else some (res.priceValue / bs / n / 8 * target)
      | _, _ => none
    else
      match hoursPer res.priceUnit with
      | none => none
      | some hu => some (res.priceValue / hu * target)

/-! ### Tasks, milestones and the GanttDrawer state

A gantt Task after GanttDrawer._register_tasks carries the duration from the
normalized record, the calendar dates the scheduler resolved (python-gantt's
Task.start_date() / end_date(): a successor starts the day after its latest
predecessor finishes, and a task with duration d occupies ceil(d) calendar
days), the names of its bound Resource objects, and the quantity-tagged
resource strings the data side keeps (read by get_usage). -/
structure GTask where
  name : String
  duration : ℚ
  start_date : Int
  end_date : Int
  resources : List String
  scaledResources : List String
deriving Repr, DecidableEq

/-- One entry of a gantt Project's task list: a Task, or a Milestone, which has
a single resolved date and no resources attribute. -/
inductive GUnit where
  | task (t : GTask)
  | milestone (name : String) (day : Int)
deriving Repr, DecidableEq

/-- The GanttDrawer state after __init__: the registered projects (each with
its task list in registration order) and the registered resources. -/
structure GanttDrawer where
  projects : List (String × List GUnit)
  resources : List (String × GResource)
deriving Repr, DecidableEq

/-- Dictionary lookup in an association list (Python dict access). -/
def lookupStr {α : Type} (xs : List (String × α)) (k : String) : Option α :=
  (xs.find? (fun p => p.1 = k)).map (fun p => p.2)

/-- self.resources[resource] lookup. -/
def GanttDrawer.find_resource (g : GanttDrawer) (resource : String) :
    Option GResource :=
  lookupStr g.resources resource

/-- self.tasks[task] lookup: the registry of Task objects across all projects
(milestones are not Task records). -/
def GanttDrawer.find_task (g : GanttDrawer) (task : String) : Option GTask :=
  (g.projects.flatMap (fun p => p.2)).findSome? (fun u =>
    match u with
    | .task t => if t.name = task then some t else none
    | .milestone _ _ => none)

/-- Modelled from the spec: python-gantt's Resource.is_available is not part of
this repository; §4.6 reads "is_resource_available(resource, day): day is not
one of the resource's declared unavailable dates". -/
def GResource.is_available (res : GResource) (d : Int) : Bool :=
  decide (d ∉ res.vacations)

/-- Task.is_active as patched in the source: start_date() <= d <= end_date(). -/
def GTask.is_active (t : GTask) (d : Int) : Bool :=
  decide (t.start_date ≤ d ∧ d ≤ t.end_date)

/-- Task.is_using as patched in the source: resource name among the names of
the task's bound resources. -/
def GTask.is_using (t : GTask) (resource : String) : Bool :=
  t.resources.contains resource

/-- Start date of a project entry (a Milestone's date stands for both). -/
def GUnit.startDate : GUnit → Int
  | .task t => t.start_date
  | .milestone _ d => d

/-- End date of a project entry. -/
def GUnit.endDate : GUnit → Int
  | .task t => t.end_date
  | .milestone _ d => d

/-- Modelled from the spec: python-gantt's Project.start_date (not repository
code) is the earliest start among the project's registered tasks; crashes
(none) on an empty project. -/
def projStartDate : List GUnit → Option Int
  | [] => none
  | u :: rest => some (rest.foldl (fun a v => min a v.startDate) u.startDate)

/-- Modelled from the spec: python-gantt's Project.end_date, the latest end
among the project's registered tasks. -/
def projEndDate : List GUnit → Option Int
  | [] => none
  | u :: rest => some (rest.foldl (fun a v => max a v.endDate) u.endDate)

/-- GanttDrawer.get_bounds: scan all projects keeping the smallest start and
the largest end; `none` when there is no project (the source would return a
pair of None values that every caller then crashes on). -/
def GanttDrawer.get_bounds (g : GanttDrawer) : Option (Int × Int) :=
  match (g.projects.mapM (fun p => do
      let s ← projStartDate p.2
      let e ← projEndDate p.2
      pure (s, e)) : Option (List (Int × Int))) with
  | none => none
  | some [] => none
  | some (p :: rest) =>
    some (rest.foldl (fun acc q => (min acc.1 q.1, max acc.2 q.2)) p)

/-- GanttDrawer.is_available: compute the overall bounds, look the resource up
(unknown resource raises), and only inside the bounds defer to the resource's
own availability; outside them the answer is False. -/
def GanttDrawer.is_available (g : GanttDrawer) (resource : String) (d : Int) :
    Option Bool :=
  match g.get_bounds with
  | none => none
  | some (start, stop) =>
    match g.find_resource resource with
    | none => none
    | some res =>
      if start ≤ d ∧ d ≤ stop then some (res.is_available d) else some false

/-- GanttDrawer.is_using: delegate to the Task object (unknown task raises). -/
def GanttDrawer.is_using (g : GanttDrawer) (task resource : String) :
    Option Bool :=
  (g.find_task task).map (fun t => t.is_using resource)

/-- GanttDrawer.is_active: delegate to the Task object (unknown task raises). -/
def GanttDrawer.is_active (g : GanttDrawer) (task : String) (d : Int) :
    Option Bool :=
  (g.find_task task).map (fun t => t.is_active d)

/-- GanttDrawer.get_usage: read the quantity-tagged resource strings of the
task's data record, check the resource exists, return the leading number of
the first string ending with the resource name, or 0.0 when none does. -/
def GanttDrawer.get_usage (g : GanttDrawer) (task resource : String) :
    Option ℚ :=
  match g.find_task task with
  | none => none
  | some t =>
    match g.find_resource resource with
    | none => none
    | some _ =>
      match t.scaledResources.find? (fun res => pyEndsWith res resource) with
      | some tok =>
        match (pyWhitespaceSplit tok).head? with
        | none => none
        | some w => parseDecimal w
      | none => some 0

/-- GanttDrawer.convert: self.resources[resource].convert(number_of_days=...),
always targeting "workday". -/
def GanttDrawer.convert (g : GanttDrawer) (resource : String)
    (number_of_days : Option ℚ) : Option ℚ :=
  match g.find_resource resource with
  | none => none
  | some res => res.convert "workday" number_of_days

/-- GanttDrawer.get_cost. task_length is the task's duration (a falsy duration
falls into float(end - start), which raises TypeError: `none`); task_days and
task_decimals are task_length // 1 and task_length % 1; duration_left is the
timedelta (start_date + task_days) - d in days. A day with duration_left.days
beyond task_days returns 0 before anything else is computed; otherwise all six
factors are computed and multiplied, with time scaling task_decimals exactly
when duration_left.days is 0. -/
def GanttDrawer.get_cost (g : GanttDrawer) (task resource : String) (d : Int) :
    Option ℚ :=
  match g.find_task task with
  | none => none
  | some t =>
    if t.duration = 0 then none
    else
      let len : ℚ := t.duration
      let days : Int := ⌊len⌋
      let decimals : ℚ := len - (days : ℚ)
      let left : Int := t.start_date + days - d
      if days < left then some 0
      else
        let scaling : ℚ := if left ≠ 0 then 1 else decimals
        match g.convert resource (some ((⌈len⌉ : Int) : ℚ)),
            g.get_usage task resource, g.is_available resource d,
            g.is_using task resource, g.is_active task d with
        | some c, some u, some a, some uu, some act =>
          some (c * scaling * u * boolInd a * boolInd uu * boolInd act)
        | _, _, _, _, _ => none

/-! ### The spec's §4.6 cost formula (spec-side definition, for refinement) -/

/-- time_fraction(day) as worded by the spec: zero when the remaining duration
from the day exceeds the whole-day count, the fractional remainder of the
duration on the final day, and 1.0 on every other day. -/
def spec_time_fraction (t : GTask) (d : Int) : ℚ :=
  let wholeDays : Int := ⌊t.duration⌋
  let remaining : Int := (t.start_date + wholeDays) - d
  if wholeDays < remaining then 0
  else if remaining = 0 then t.duration - (wholeDays : ℚ)
  else 1

/-- cost(task, resource, day) as worded by the spec: unit_rate(resource,
ceil(task_duration)) × time_fraction(day) × usage_quantity(task, resource) ×
is_resource_available(resource, day) × is_task_active(task, day) ×
is_task_using(task, resource). -/
def GanttDrawer.spec_cost (g : GanttDrawer) (task resource : String)
    (d : Int) : Option ℚ :=
  match g.find_task task with
  | none => none
  | some t =>
    match g.convert resource (some ((⌈t.duration⌉ : Int) : ℚ)),
        g.get_usage task resource, g.is_available resource d,
        g.is_active task d, g.is_using task resource with
    | some rate, some u, some a, some act, some uu =>
      some (rate * spec_time_fraction t d * u * boolInd a * boolInd act *
        boolInd uu)
    | _, _, _, _, _ => none

/-! ### Budget Ledger -/

/-- One row of the budget table, with the source's column order: project,
task, resource, category, subcategory, date, amount. -/
structure BudgetRow where
  project : String
  task : String
  resource : String
  category : String
  subcategory : String
  date : Int
  amount : ℚ
deriving Repr, DecidableEq

/-- Option-valued mapM with the evaluation order of a Python for loop: the
first raising iteration aborts the whole loop. -/
def optMapM {α β : Type} (f : α → Option β) : List α → Option (List β)
  | [] => some []
  | x :: t =>
    match f x, optMapM f t with
    | some y, some r => some (y :: r)
    | _, _ => none

/-- Option-valued flatMap, again in Python loop order. -/
def optFlatMap {α β : Type} (xs : List α) (f : α → Option (List β)) :
    Option (List β) :=
  match xs with
  | [] => some []
  | x :: t =>
    match f x, optFlatMap t f with
    | some h, some r => some (h ++ r)
    | _, _ => none

/-- The per-day cost samples of one task/resource pair over the whole span:
get_cost at start, start+1, ..., start+days-1 (budget's inner loop body before
its nonzero filter). -/
def GanttDrawer.taskDayAmounts (g : GanttDrawer) (tname rname : String)
    (start : Int) (days : Nat) : Option (List (Int × ℚ)) :=
  optMapM (fun (i : Nat) =>
      (g.get_cost tname rname (start + (i : Int))).map
        (fun amt => (start + (i : Int), amt)))
    (List.range days)

/-- Row constructor used by budget: category and subcategory are written as
empty strings. -/
def mkRow (p t r : String) (d : Int) (amt : ℚ) : BudgetRow :=
  ⟨p, t, r, "", "", d, amt⟩

/-- The dense ledger: the exact loop nest of GanttDrawer.budget (projects in
registration order, each project's tasks in registration order, milestones
skipped for lacking a resources attribute, each task's resources in order,
days ascending over the inclusive overall span) without the nonzero filter. -/
def GanttDrawer.budgetDense (g : GanttDrawer) : Option (List BudgetRow) :=
  match g.get_bounds with
  | none => none
  | some (start, stop) =>
    let days : Nat := (stop - start + 1).toNat
    optFlatMap g.projects (fun pr =>
      optFlatMap pr.2 (fun u =>
        match u with
        | .milestone _ _ => some []
        | .task t =>
          optFlatMap t.resources (fun rname =>
            (g.taskDayAmounts t.name rname start days).map
              (fun pairs =>
                pairs.map (fun pa => mkRow pr.1 t.name rname pa.1 pa.2)))))

/-- GanttDrawer.budget: same loop nest, appending a row only when the computed
amount is nonzero. -/
def GanttDrawer.budget (g : GanttDrawer) : Option (List BudgetRow) :=
  match g.get_bounds with
  | none => none
  | some (start, stop) =>
    let days : Nat := (stop - start + 1).toNat
    optFlatMap g.projects (fun pr =>
      optFlatMap pr.2 (fun u =>
        match u with
        | .milestone _ _ => some []
        | .task t =>
          optFlatMap t.resources (fun rname =>
            (g.taskDayAmounts t.name rname start days).map
              (fun pairs =>
                (pairs.filter (fun pa => decide (pa.2 ≠ 0))).map
                  (fun pa => mkRow pr.1 t.name rname pa.1 pa.2)))))

/-! ### Task Normalizer (ProjectReader.__init__) -/

/-- Python's round(q, 3): round to the closest multiple of 1/1000, ties to the
even multiple (banker's rounding, which CPython's round implements). -/
def roundHalfEven (q : ℚ) : Int :=
  if Int.fract q < 1 / 2 then ⌊q⌋
  else if 1 / 2 < Int.fract q then ⌈q⌉
  else if Even ⌊q⌋ then ⌊q⌋ else ⌈q⌉

/-- round(x, 3) of the source's duration estimate. -/
def pyRound3 (q : ℚ) : ℚ :=
  ((roundHalfEven (q * 1000) : ℚ)) / 1000

/-- The duration-related fields of one raw task entry, before normalization.
A missing YAML key, or an explicit null, is `none`. -/
structure RawTask where
  duration : Option ℚ
  best : Option ℚ
  optimal : Option ℚ
  worst : Option ℚ
deriving Repr, DecidableEq

/-- The duration/PERT normalization step of ProjectReader.__init__: a present
duration is copied into best, optimal and worst; otherwise the duration is
round((best + 4*optimal + worst) / 6, 3), raising (none) when any of the three
estimates is missing. Returns (duration, best, optimal, worst). -/
def normalizeDuration (t : RawTask) : Option (ℚ × ℚ × ℚ × ℚ) :=
  match t.duration with
  | some d => some (d, d, d, d)
  | none =>
    match t.best, t.optimal, t.worst with
    | some b, some o, some w => some (pyRound3 ((b + 4 * o + w) / 6), b, o, w)
    | _, _, _ => none

/-- The shape of a YAML field value as the normalizer discriminates it: null,
a string, a list of strings, or anything else. -/
inductive YamlField where
  | nullv
  | str (s : String)
  | list (xs : List String)
  | other
deriving Repr, DecidableEq

/-- The resources-field normalization of ProjectReader.__init__: null becomes
the empty list, a comma-bearing string is split on commas with each part
stripped, a bare string becomes a stripped singleton, a list is kept as-is,
and any other shape raises ValueError. -/
def normalizeResources : YamlField → Except String (List String)
  | .nullv => .ok []
  | .str s =>
    if pyContains s ',' then .ok ((pySplit s ',').map pyStrip)
    else .ok [pyStrip s]
  | .list xs => .ok xs
  | .other => .error "Unknown resource format type"

/-- The source's resource-token pattern (the regex with a digit run, an
optional dot with further digits, a whitespace run, then word characters to
the end of the token). -/
def matchResourcePattern (s : String) : Bool :=
  let cs := s.toList
  let sp1 := cs.span Char.isDigit
  if sp1.1.isEmpty then false
  else
    let r1 :=
      match sp1.2 with
      | '.' :: t => t.dropWhile Char.isDigit
      | other => other
    let sp2 := r1.span Char.isWhitespace
    if sp2.1.isEmpty then false
    else
      let sp3 := sp2.2.span (fun c => c.isAlphanum ∨ c = '_')
      ¬ sp3.1.isEmpty ∧ sp3.2.isEmpty

/-- The quantity-prefixing pass: a token that does not match the pattern is
replaced by "1 " followed by the token. -/
def quantifyToken (tok : String) : String :=
  if matchResourcePattern tok then tok else "1 " ++ tok

/-- Prefixing applied to every normalized resource token. -/
def quantifyTokens (toks : List String) : List String :=
  toks.map quantifyToken

/-- The whole resources-field pipeline: shape normalization followed by the
quantity-prefixing pass. -/
def processResources (f : YamlField) : Except String (List String) :=
  (normalizeResources f).map quantifyTokens

/-- The depends_on-field normalization of ProjectReader.__init__: null becomes
the empty list, a comma-bearing string is split on commas (the parts are not
stripped), a bare string becomes a singleton, a list is kept as-is, any other
shape raises ValueError. -/
def normalizeDependsOn : YamlField → Except String (List String)
  | .nullv => .ok []
  | .str s =>
    if pyContains s ',' then .ok (pySplit s ',')
    else .ok [s]
  | .list xs => .ok xs
  | .other => .error "Unknown depends_on format type"

/-! ### Resource registration (GanttDrawer._register_resources) -/

/-- A raw price mapping from the definition file. -/
structure PriceDef where
  value : ℚ
  unit : String
  batchSize : Option ℚ
deriving Repr, DecidableEq

/-- A raw resource definition: optional price mapping (a missing one defaults
to value 0 with unit "unit") and optional vacation-date list. -/
structure ResourceDef where
  price : Option PriceDef
  vacations : Option (List Int)
deriving Repr, DecidableEq

/-- Registration of a single resource, in the source's order: default the
price, reject a batch price without batch_size, install the vacations, reject
a unit- or batch-priced resource whose vacations are nonempty. -/
def registerOne (name : String) (rd : ResourceDef) : Except String GResource :=
  if (rd.price.getD ⟨0, "unit", none⟩).unit = "batch" ∧
      (rd.price.getD ⟨0, "unit", none⟩).batchSize = none then
    .error ("Error in Resource " ++ name ++
      ": batch resource definition missing key batch_size")
  else if ((rd.price.getD ⟨0, "unit", none⟩).unit = "unit" ∨
      (rd.price.getD ⟨0, "unit", none⟩).unit = "batch") ∧
      ¬ (rd.vacations.getD []).isEmpty then
    .error ("Resource:" ++ name ++
      " cannot have unit/batch unit type and holidays at the same time")
  else
    .ok ⟨name, (rd.price.getD ⟨0, "unit", none⟩).value,
      (rd.price.getD ⟨0, "unit", none⟩).unit,
      (rd.price.getD ⟨0, "unit", none⟩).batchSize, rd.vacations.getD []⟩

/-- GanttDrawer._register_resources: register every resource in order; the
first offending definition raises and aborts construction. -/
def registerResources :
    List (String × ResourceDef) → Except String (List (String × GResource))
  | [] => .ok []
  | (n, rd) :: rest =>
    match registerOne n rd with
    | .error msg => .error msg
    | .ok r =>
      match registerResources rest with
      | .error msg => .error msg
      | .ok rs => .ok ((n, r) :: rs)

/-! ### Critical Path (ProjectReader._get_critical_path) -/

/-- One entry of the cpm data handed to _get_critical_path: node name,
duration, lag and the predecessor names. -/
structure CpmEntry where
  name : String
  duration : ℚ
  lag : ℚ
  depends_of : List String
deriving Repr, DecidableEq

/-- The source's second loop: for every entry, in order, resolve each
predecessor name in the node dictionary; the first name that is not a key
raises KeyError. -/
def resolveLinks (keys : List String) :
    List (String × CpmEntry) → Except String Unit
  | [] => .ok ()
  | (_, v) :: rest =>
    match v.depends_of.find? (fun link => ¬ keys.contains link) with
    | some link => .error ("KeyError: " ++ link)
    | none => resolveLinks keys rest

/-- Entry lookup by node name. -/
def lookupEntry (cpm : List (String × CpmEntry)) (k : String) :
    Option CpmEntry :=
  lookupStr cpm k

/-- Modelled from the spec: the criticalpath library's forward pass (§4.4, not
repository code): earliest finish of a node is the maximum earliest finish of
its predecessors plus its own duration and lag. Fueled recursion; the fuel
list length bounds the dependency depth of an acyclic graph. -/
def earliestFinish (cpm : List (String × CpmEntry)) :
    Nat → String → ℚ
  | 0, _ => 0
  | fuel + 1, k =>
    match lookupEntry cpm k with
    | none => 0
    | some v =>
      (v.depends_of.map (earliestFinish cpm fuel)).foldr max 0 +
        v.duration + v.lag

/-- Modelled from the spec: the overall project finish, the maximum earliest
finish over all nodes. -/
def projectFinish (cpm : List (String × CpmEntry)) : ℚ :=
  (cpm.map (fun e => earliestFinish cpm cpm.length e.1)).foldr max 0

/-- Modelled from the spec: the backward pass (§4.4): latest finish of a node
is the minimum latest start among its successors, anchored at the project
finish, and latest start subtracts duration and lag. -/
def latestStart (cpm : List (String × CpmEntry)) :
    Nat → String → ℚ
  | 0, _ => 0
  | fuel + 1, k =>
    match lookupEntry cpm k with
    | none => 0
    | some v =>
      let succs := cpm.filter (fun e => e.2.depends_of.contains k)
      let lf :=
        (succs.map (fun e => latestStart cpm fuel e.1)).foldr min
          (projectFinish cpm)
      lf - v.duration - v.lag

/-- Earliest start of a node: earliest finish minus duration and lag. -/
def earliestStart (cpm : List (String × CpmEntry)) (k : String) : ℚ :=
  match lookupEntry cpm k with
  | none => 0
  | some v => earliestFinish cpm cpm.length k - v.duration - v.lag

/-- Stable ascending insertion by a key. -/
def insertAsc (key : String → ℚ) (x : String) : List String → List String
  | [] => [x]
  | y :: t => if key x < key y then x :: y :: t else y :: insertAsc key x t

/-- Modelled from the spec: update_all / get_critical_path of the criticalpath
library (§4.4): the zero-slack nodes, ordered by earliest start. -/
def cpmCriticalPath (cpm : List (String × CpmEntry)) : List String :=
  let critical := (cpm.filter (fun e =>
      latestStart cpm cpm.length e.1 = earliestStart cpm e.1)).map
    (fun e => e.1)
  critical.foldr (insertAsc (earliestStart cpm)) []

/-- ProjectReader._get_critical_path: build the node dictionary over every
entry, resolve all predecessor links (a dangling name raises KeyError before
any path computation), then compute and return the critical path. -/
def get_critical_path (cpm : List (String × CpmEntry)) :
    Except String (List String) :=
  match resolveLinks (cpm.map (fun e => e.1)) cpm with
  | .error msg => .error msg
  | .ok _ => .ok (cpmCriticalPath cpm)

/-! ### The §8 end-to-end scenario (the repository's flat_project fixture)

Dates encode 2022-09-NN as NN. brief starts 2022-09-05 with duration 0.125,
so it occupies 09-05 alone; goals (duration 0.25, "1 Martin") depends on brief
and is scheduled on 09-06 alone; "Env setup" (duration 1, "1 Martin") depends
on goals and occupies 09-07; the kickoff milestone resolves to 09-06. Martin
costs 68.75 per workhour with a vacation on 09-15; Samuel costs 600 per
workday. The start/end dates are the ones python-gantt resolves, as pinned by
the repository's own is_active tests. -/

def martin : GResource := ⟨"Martin", 275 / 4, "workhour", none, [15]⟩

def samuel : GResource := ⟨"Samuel", 600, "workday", none, []⟩

def briefTask : GTask := ⟨"brief", 1 / 8, 5, 5, [], []⟩

def goalsTask : GTask := ⟨"goals", 1 / 4, 6, 6, ["Martin"], ["1 Martin"]⟩

def envSetupTask : GTask := ⟨"Env setup", 1, 7, 7, ["Martin"], ["1 Martin"]⟩

def flatDrawer : GanttDrawer :=
  ⟨[("Test1",
      [.task briefTask, .milestone "kickoff" 6, .task goalsTask,
        .task envSetupTask])],
    [("Martin", martin), ("Samuel", samuel)]⟩

/-! ## Helper lemmas -/

theorem hoursPer_pos {u : String} {a : ℚ} (h : hoursPer u = some a) : 0 < a := by
  unfold hoursPer at h
  split_ifs at h <;> simp_all <;> norm_num [← h]

theorem workUnit_hours {u : String} (h : u ∈ workUnits) :
    ∃ a : ℚ, hoursPer u = some a ∧ 0 < a ∧ u ≠ "unit" ∧ u ≠ "batch" := by
  fin_cases h
  · exact ⟨1, rfl, by norm_num, by decide, by decide⟩
  · exact ⟨8, rfl, by norm_num, by decide, by decide⟩
  · exact ⟨40, rfl, by norm_num, by decide, by decide⟩
  · exact ⟨866 / 5, rfl, by norm_num, by decide, by decide⟩
  · exact ⟨2598 / 5, rfl, by norm_num, by decide, by decide⟩

theorem hoursPer_workday : hoursPer "workday" = some 8 := rfl

theorem convert_time_unit (nm u v : String) (r : ℚ) (nd : Option ℚ)
    (hu hv : ℚ) (h1 : hoursPer u = some hu) (h2 : hoursPer v = some hv)
    (hne1 : u ≠ "unit") (hne2 : u ≠ "batch") :
    (GResource.mk nm r u none []).convert v nd = some (r / hu * hv) := by
  unfold GResource.convert
  rw [h2]
  simp [hne1, hne2, h1]

theorem roundHalfEven_intCast (k : Int) : roundHalfEven (k : ℚ) = k := by
  unfold roundHalfEven
  norm_num [Int.fract_intCast]

theorem registerOne_batch_error {n : String} {rd : ResourceDef}
    (h1 : (rd.price.getD ⟨0, "unit", none⟩).unit = "batch")
    (h2 : (rd.price.getD ⟨0, "unit", none⟩).batchSize = none) :
    ∃ msg, registerOne n rd = .error msg := by
  exact ⟨_, by unfold registerOne; rw [if_pos ⟨h1, h2⟩]⟩

theorem registerOne_vacation_error {n : String} {rd : ResourceDef}
    (h1 : (rd.price.getD ⟨0, "unit", none⟩).unit = "unit" ∨
      (rd.price.getD ⟨0, "unit", none⟩).unit = "batch")
    (h2 : (rd.vacations.getD []).isEmpty = false) :
    ∃ msg, registerOne n rd = .error msg := by
  unfold registerOne
  split_ifs with hb hv
  · exact ⟨_, rfl⟩
  · exact ⟨_, rfl⟩
  · exact absurd ⟨h1, by simp [h2]⟩ hv

theorem registerResources_error_of_mem :
    ∀ (defs : List (String × ResourceDef)) (n : String) (rd : ResourceDef),
      (n, rd) ∈ defs → (∃ m, registerOne n rd = .error m) →
      ∃ msg, registerResources defs = .error msg := by
  intro defs
  induction defs with
  | nil => intro n rd h _; exact absurd h (List.not_mem_nil _)
  | cons hd tl ih =>
    intro n rd hmem ⟨m, herr⟩
    rcases List.mem_cons.mp hmem with heq | htl
    · subst heq
      exact ⟨m, by unfold registerResources; rw [herr]⟩
    · obtain ⟨hn, hrd⟩ := hd
      unfold registerResources
      match h1 : registerOne hn hrd with
      | .error m0 => exact ⟨m0, rfl⟩
      | .ok r =>
        obtain ⟨msg, hmsg⟩ := ih n rd htl ⟨m, herr⟩
        exact ⟨msg, by rw [hmsg]⟩

theorem resolveLinks_error :
    ∀ (entries : List (String × CpmEntry)) (keys : List String) (k : String)
      (v : CpmEntry) (link : String),
      (k, v) ∈ entries → link ∈ v.depends_of → link ∉ keys →
      ∃ msg, resolveLinks keys entries = .error msg := by
  intro entries
  induction entries with
  | nil => intro keys k v link h _ _; exact absurd h (List.not_mem_nil _)
  | cons hd tl ih =>
    intro keys k v link hmem hlink hkeys
    obtain ⟨k0, v0⟩ := hd
    unfold resolveLinks
    match hf : v0.depends_of.find? (fun l => ¬ keys.contains l) with
    | some l => exact ⟨_, rfl⟩
    | none =>
      rcases List.mem_cons.mp hmem with heq | htl
      · exfalso
        cases heq
        have h2 := List.find?_eq_none.mp hf link hlink
        simp at h2
        exact absurd h2 hkeys
      · exact ih keys k v link htl hlink hkeys

theorem optMapM_mem {α β : Type} {f : α → Option β} :
    ∀ {xs : List α} {ys : List β} {y : β},
      optMapM f xs = some ys → y ∈ ys → ∃ x ∈ xs, f x = some y := by
  intro xs
  induction xs with
  | nil =>
    intro ys y h hy
    unfold optMapM at h
    cases h
    exact absurd hy (List.not_mem_nil _)
  | cons x t ih =>
    intro ys y h hy
    unfold optMapM at h
    match h1 : f x, h2 : optMapM f t with
    | some z, some r =>
      rw [h1, h2] at h
      cases h
      rcases List.mem_cons.mp hy with heq | hr
      · exact ⟨x, List.mem_cons_self _ _, heq ▸ h1⟩
      · obtain ⟨x', hx', hfx'⟩ := ih h2 hr
        exact ⟨x', List.mem_cons_of_mem _ hx', hfx'⟩
    | some z, none => rw [h1, h2] at h; cases h
    | none, _ => rw [h1] at h; cases h

theorem optFlatMap_mem {α β : Type} {f : α → Option (List β)} :
    ∀ {xs : List α} {ys : List β} {y : β},
      optFlatMap xs f = some ys → y ∈ ys →
      ∃ x ∈ xs, ∃ zs, f x = some zs ∧ y ∈ zs := by
  intro xs
  induction xs with
  | nil =>
    intro ys y h hy
    unfold optFlatMap at h
    cases h
    exact absurd hy (List.not_mem_nil _)
  | cons x t ih =>
    intro ys y h hy
    unfold optFlatMap at h
    match h1 : f x, h2 : optFlatMap t f with
    | some h0, some r =>
      rw [h1, h2] at h
      cases h
      rcases List.mem_append.mp hy with hl | hr
      · exact ⟨x, List.mem_cons_self _ _, h0, h1, hl⟩
      · obtain ⟨x', hx', zs, hzs, hyzs⟩ := ih h2 hr
        exact ⟨x', List.mem_cons_of_mem _ hx', zs, hzs, hyzs⟩
    | some h0, none => rw [h1, h2] at h; cases h
    | none, _ => rw [h1] at h; cases h

theorem optFlatMap_congr_map_filter {α β : Type} (p : β → Bool) :
    ∀ (xs : List α) (f f' : α → Option (List β)),
      (∀ x ∈ xs, f' x = (f x).map (fun l => l.filter p)) →
      optFlatMap xs f' = (optFlatMap xs f).map (fun l => l.filter p) := by
  intro xs
  induction xs with
  | nil => intro f f' _; rfl
  | cons x t ih =>
    intro f f' h
    unfold optFlatMap
    rw [h x (List.mem_cons_self _ _),
      ih f f' (fun y hy => h y (List.mem_cons_of_mem _ hy))]
    cases f x with
    | none => rfl
    | some h0 =>
      cases optFlatMap t f with
      | none => rfl
      | some r => simp [List.filter_append]

instance exceptDecEq {e a : Type} [DecidableEq e] [DecidableEq a] :
    DecidableEq (Except e a) := fun x y =>
  match x, y with
  | .ok v, .ok w =>
    if h : v = w then .isTrue (by rw [h]) else .isFalse (by simp [h])
  | .error v, .error w =>
    if h : v = w then .isTrue (by rw [h]) else .isFalse (by simp [h])
  | .ok _, .error _ => .isFalse (by simp)
  | .error _, .ok _ => .isFalse (by simp)

/-! ## Claim theorems -/

/-- C3 (amended): during normalization of a task entry, a present duration is
copied into best = optimal = worst; an absent duration is computed as
round((best + 4*optimal + worst)/6, 3) and normalization fails when the
estimates are incomplete; and for best = optimal = worst = d the computed
estimate equals d exactly whenever 1000·d is an integer (i.e. d is expressible
with at most three decimal places — in general the estimate is the 3-decimal
banker's rounding of d, see the counterexample). -/
theorem duration_normalization :
    (∀ t : RawTask, ∀ d : ℚ, t.duration = some d →
      normalizeDuration t = some (d, d, d, d)) ∧
    (∀ t : RawTask, ∀ b o w : ℚ, t.duration = none → t.best = some b →
      t.optimal = some o → t.worst = some w →
      normalizeDuration t = some (pyRound3 ((b + 4 * o + w) / 6), b, o, w)) ∧
    (∀ t : RawTask, t.duration = none →
      (t.best = none ∨ t.optimal = none ∨ t.worst = none) →
      normalizeDuration t = none) ∧
    (∀ d : ℚ, ∀ k : Int, d = (k : ℚ) / 1000 →
      normalizeDuration ⟨none, some d, some d, some d⟩ = some (d, d, d, d)) := by
  refine ⟨?_, ?_, ?_, ?_⟩
  · intro t d h
    unfold normalizeDuration
    rw [h]
  · intro t b o w hd hb ho hw
    unfold normalizeDuration
    rw [hd, hb, ho, hw]
  · intro t hd hmiss
    unfold normalizeDuration
    rw [hd]
    rcases hmiss with h | h | h <;> rw [h] <;>
      cases t.best <;> cases t.optimal <;> cases t.worst <;> simp_all
  · intro d k hk
    unfold normalizeDuration
    simp only
    have h6 : (d + 4 * d + d) / 6 = d := by ring
    have h1000 : d * 1000 = (k : ℚ) := by rw [hk]; ring
    have : pyRound3 d = d := by
      unfold pyRound3
      rw [h1000, roundHalfEven_intCast, ← hk]
    rw [h6, this]

/-- C3 witness: concrete evaluations of the amended theorem. -/
theorem duration_normalization_witness :
    normalizeDuration ⟨some (1 / 8), none, none, none⟩ =
      some (1 / 8, 1 / 8, 1 / 8, 1 / 8) ∧
    normalizeDuration ⟨none, some (1 / 8), some (1 / 8), some (1 / 8)⟩ =
      some (1 / 8, 1 / 8, 1 / 8, 1 / 8) := by
  constructor
  · exact duration_normalization.1 ⟨some (1 / 8), none, none, none⟩ (1 / 8) rfl
  · exact duration_normalization.2.2.2 (1 / 8) 125 (by norm_num)

/-- C3 counterexample: for best = optimal = worst = 0.0625 the computed
estimate is round(0.0625, 3) = 0.062 = 31/500, not 0.0625 — the claim's
"equals d exactly" fails. -/
theorem duration_normalization_cex :
    normalizeDuration ⟨none, some (1 / 16), some (1 / 16), some (1 / 16)⟩ =
      some (31 / 500, 1 / 16, 1 / 16, 1 / 16) ∧
    ((31 : ℚ) / 500) ≠ (1 : ℚ) / 16 := by
  constructor
  · with_unfolding_all decide
  · norm_num

/-- C4: Resource.convert to "workday". A "unit"-priced resource yields
price / number_of_days (per workday) and fails when number_of_days is
omitted; a "batch"-priced resource yields price / batch_size / number_of_days;
a time-unit-priced resource yields price / time_unit converted to 1/workday,
independent of number_of_days; in particular 68.75 per workhour converts to
550 per workday. -/
theorem resource_convert_cases :
    (∀ res : GResource, ∀ n : ℚ, res.priceUnit = "unit" → n ≠ 0 →
      res.convert "workday" (some n) = some (res.priceValue / n) ∧
      res.convert "workday" none = none) ∧
    (∀ res : GResource, ∀ bs n : ℚ, res.priceUnit = "batch" →
      res.batchSize = some bs → bs ≠ 0 → n ≠ 0 →
      res.convert "workday" (some n) = some (res.priceValue / bs / n)) ∧
    (∀ res : GResource, ∀ hu : ℚ, res.priceUnit ≠ "unit" →
      res.priceUnit ≠ "batch" → hoursPer res.priceUnit = some hu →
      (∀ nd nd' : Option ℚ,
        res.convert "workday" nd = res.convert "workday" nd') ∧
      res.convert "workday" none = some (res.priceValue / hu * 8)) ∧
    martin.convert "workday" none = some 550 := by
  refine ⟨?_, ?_, ?_, by with_unfolding_all decide⟩
  · intro res n hu hn
    constructor
    · simp [GResource.convert, hoursPer_workday, hu, hn]
    · simp [GResource.convert, hoursPer_workday, hu]
  · intro res bs n hu hbs hbsne hn
    simp [GResource.convert, hoursPer_workday, hu, hbs, hbsne, hn]
  · intro res hu hne1 hne2 hh
    constructor
    · intro nd nd'
      simp [GResource.convert, hoursPer_workday, hne1, hne2, hh]
    · simp [GResource.convert, hoursPer_workday, hne1, hne2, hh]

/-- C4 witness: the general cases applied to concrete resources. -/
theorem resource_convert_cases_witness :
    (GResource.mk "Flat" 100 "unit" none []).convert "workday" (some 4) =
      some 25 ∧
    (GResource.mk "Flat" 100 "unit" none []).convert "workday" none = none ∧
    (GResource.mk "Lot" 100 "batch" (some 10) []).convert "workday" (some 2) =
      some 5 ∧
    samuel.convert "workday" (some 3) = samuel.convert "workday" none := by
  have h1 := (resource_convert_cases.1 (GResource.mk "Flat" 100 "unit" none [])
    4 rfl (by norm_num))
  have h2 := resource_convert_cases.2.1 (GResource.mk "Lot" 100 "batch"
    (some 10) []) 10 2 rfl rfl (by norm_num) (by norm_num)
  have h3 := (resource_convert_cases.2.2.1 samuel 8 (by decide) (by decide)
    rfl).1 (some 3) none
  refine ⟨?_, h1.2, ?_, h3⟩
  · rw [h1.1]; norm_num
  · rw [h2]; norm_num

/-- C5: resources-field normalization: null becomes the empty list, a
comma-bearing string is split on commas with parts stripped, a bare string
becomes a stripped singleton, a list is used as-is, any other shape is a fatal
format error; afterwards every token not matching the source's
number-whitespace-name pattern is prefixed with quantity "1", so "Martin"
becomes "1 Martin" while "0.5 Martin" is unchanged. -/
theorem resources_normalization :
    processResources .nullv = .ok [] ∧
    (∀ s : String, pyContains s ',' = true →
      processResources (.str s) =
        .ok (quantifyTokens ((pySplit s ',').map pyStrip))) ∧
    (∀ s : String, pyContains s ',' = false →
      processResources (.str s) = .ok (quantifyTokens [pyStrip s])) ∧
    (∀ xs : List String, processResources (.list xs) =
      .ok (quantifyTokens xs)) ∧
    (∃ msg, processResources .other = .error msg) ∧
    (∀ tok : String, matchResourcePattern tok = false →
      quantifyToken tok = "1 " ++ tok) ∧
    (∀ tok : String, matchResourcePattern tok = true →
      quantifyToken tok = tok) ∧
    processResources (.str "Martin") = .ok ["1 Martin"] ∧
    processResources (.str "0.5 Martin") = .ok ["0.5 Martin"] ∧
    processResources (.str "Martin, Samuel") = .ok ["1 Martin", "1 Samuel"] := by
  refine ⟨rfl, ?_, ?_, fun xs => rfl, ⟨_, rfl⟩, ?_, ?_, by decide, by decide,
    by decide⟩
  · intro s h
    simp [processResources, normalizeResources, h, Except.map]
  · intro s h
    simp [processResources, normalizeResources, h, Except.map]
  · intro tok h
    simp [quantifyToken, h]
  · intro tok h
    simp [quantifyToken, h]

/-- C5 witness: the hypothesis-bearing cases at concrete tokens. -/
theorem resources_normalization_witness :
    processResources (.str "0.5 Martin, 2 Samuel") =
      .ok (quantifyTokens ((pySplit "0.5 Martin, 2 Samuel" ',').map pyStrip)) ∧
    processResources (.str " Martin ") = .ok (quantifyTokens [pyStrip " Martin "]) ∧
    quantifyToken "Martin" = "1 " ++ "Martin" ∧
    quantifyToken "0.5 Martin" = "0.5 Martin" := by
  refine ⟨resources_normalization.2.1 _ (by decide), ?_, ?_, ?_⟩
  · exact resources_normalization.2.2.1 _ (by decide)
  · exact resources_normalization.2.2.2.2.2.1 "Martin" (by decide)
  · exact resources_normalization.2.2.2.2.2.2.1 "0.5 Martin" (by decide)

/-- C6 (amended): depends_on-field normalization: null becomes the empty
list, a comma-bearing string is split on commas with the parts NOT trimmed of
surrounding whitespace, a bare string becomes a singleton, a list is used
as-is, and any other shape raises a fatal format error. -/
theorem depends_on_normalization :
    normalizeDependsOn .nullv = .ok [] ∧
    (∀ s : String, pyContains s ',' = true →
      normalizeDependsOn (.str s) = .ok (pySplit s ',')) ∧
    (∀ s : String, pyContains s ',' = false →
      normalizeDependsOn (.str s) = .ok [s]) ∧
    (∀ xs : List String, normalizeDependsOn (.list xs) = .ok xs) ∧
    (∃ msg, normalizeDependsOn .other = .error msg) := by
  refine ⟨rfl, ?_, ?_, fun xs => rfl, ⟨_, rfl⟩⟩
  · intro s h
    simp [normalizeDependsOn, h]
  · intro s h
    simp [normalizeDependsOn, h]

/-- C6 witness: the comma and bare-string cases at concrete inputs. -/
theorem depends_on_normalization_witness :
    normalizeDependsOn (.str "a,b") = .ok (pySplit "a,b" ',') ∧
    normalizeDependsOn (.str "brief") = .ok ["brief"] := by
  exact ⟨depends_on_normalization.2.1 "a,b" (by decide),
    depends_on_normalization.2.2.1 "brief" (by decide)⟩

/-- C6 counterexample: for the comma-bearing string "brief, goals" the code
produces ["brief", " goals"] — the second part keeps its leading space — so
the claimed trimming does not happen. -/
theorem depends_on_normalization_cex :
    normalizeDependsOn (.str "brief, goals") = .ok ["brief", " goals"] ∧
    (["brief", " goals"] : List String) ≠ ["brief", "goals"] := by
  exact ⟨by decide, by decide⟩

/-- C7: for work-time units U, V and a positive rate R, a resource priced R
per U converted to per-V and the result converted back to per-U recover R —
exactly, in the rational model, hence within any floating-point tolerance. -/
theorem unit_conversion_round_trip :
    ∀ u v : String, u ∈ workUnits → v ∈ workUnits → ∀ r : ℚ, 0 < r →
    ∃ r' : ℚ,
      (GResource.mk "res" r u none []).convert v none = some r' ∧
      (GResource.mk "res" r' v none []).convert u none = some r := by
  intro u v hu hv r _
  obtain ⟨a, ha, hapos, hau, hab⟩ := workUnit_hours hu
  obtain ⟨b, hb, hbpos, hbu, hbb⟩ := workUnit_hours hv
  refine ⟨r / a * b, convert_time_unit "res" u v r none a b ha hb hau hab, ?_⟩
  rw [convert_time_unit "res" v u (r / a * b) none b a hb ha hbu hbb]
  congr 1
  field_simp
  ring

/-- C7 witness: the round trip at workhour/workweek with rate 11. -/
theorem unit_conversion_round_trip_witness :
    ∃ r' : ℚ,
      (GResource.mk "res" 11 "workhour" none []).convert "workweek" none =
        some r' ∧
      (GResource.mk "res" r' "workweek" none []).convert "workhour" none =
        some 11 :=
  unit_conversion_round_trip "workhour" "workweek" (by decide) (by decide) 11
    (by norm_num)

/-- C8: a task entry declaring a predecessor name that is not among the
project's task names makes _get_critical_path raise a KeyError during
construction (the links-resolution loop fails before any path computation),
so no critical path is produced and the dangling edge is never dropped. -/
theorem dangling_predecessor_fails :
    ∀ (cpm : List (String × CpmEntry)) (k : String) (v : CpmEntry)
      (link : String),
      (k, v) ∈ cpm → link ∈ v.depends_of →
      link ∉ cpm.map (fun e => e.1) →
      ∃ msg, get_critical_path cpm = .error msg := by
  intro cpm k v link hmem hlink hkeys
  obtain ⟨msg, hmsg⟩ :=
    resolveLinks_error cpm (cpm.map (fun e => e.1)) k v link hmem hlink hkeys
  exact ⟨msg, by unfold get_critical_path; rw [hmsg]⟩

/-- C8 witness: a single task depending on the undeclared name "ghost". -/
theorem dangling_predecessor_fails_witness :
    ∃ msg,
      get_critical_path [("a", ⟨"a", 1, 0, ["ghost"]⟩)] = .error msg :=
  dangling_predecessor_fails [("a", ⟨"a", 1, 0, ["ghost"]⟩)] "a"
    ⟨"a", 1, 0, ["ghost"]⟩ "ghost" (by decide) (by decide) (by decide)

/-- C9: resource registration fails at construction: a "batch"-priced
resource without batch_size raises, a "unit"- or "batch"-priced resource with
vacation dates raises, and a time-unit-priced resource with vacations is
accepted. _register_resources runs in GanttDrawer.__init__ before any task
registration or budgeting. -/
theorem register_resources_constraints :
    (∀ (defs : List (String × ResourceDef)) (n : String) (rd : ResourceDef),
      (n, rd) ∈ defs →
      (rd.price.getD ⟨0, "unit", none⟩).unit = "batch" →
      (rd.price.getD ⟨0, "unit", none⟩).batchSize = none →
      ∃ msg, registerResources defs = .error msg) ∧
    (∀ (defs : List (String × ResourceDef)) (n : String) (rd : ResourceDef),
      (n, rd) ∈ defs →
      ((rd.price.getD ⟨0, "unit", none⟩).unit = "unit" ∨
        (rd.price.getD ⟨0, "unit", none⟩).unit = "batch") →
      (rd.vacations.getD []).isEmpty = false →
      ∃ msg, registerResources defs = .error msg) ∧
    (∀ (n : String) (v : ℚ) (u : String) (bs : Option ℚ) (vac : List Int),
      u ≠ "unit" → u ≠ "batch" →
      registerResources [(n, ⟨some ⟨v, u, bs⟩, some vac⟩)] =
        .ok [(n, ⟨n, v, u, bs, vac⟩)]) := by
  refine ⟨?_, ?_, ?_⟩
  · intro defs n rd hmem h1 h2
    exact registerResources_error_of_mem defs n rd hmem
      (registerOne_batch_error h1 h2)
  · intro defs n rd hmem h1 h2
    exact registerResources_error_of_mem defs n rd hmem
      (registerOne_vacation_error h1 h2)
  · intro n v u bs vac hu1 hu2
    unfold registerResources registerOne
    simp [hu1, hu2, registerResources]

/-- C9 witness: the three behaviors at concrete resource definitions. -/
theorem register_resources_constraints_witness :
    (∃ msg, registerResources
      [("M", ⟨some ⟨100, "batch", none⟩, none⟩)] = .error msg) ∧
    (∃ msg, registerResources
      [("M", ⟨some ⟨100, "unit", none⟩, some [15]⟩)] = .error msg) ∧
    registerResources [("M", ⟨some ⟨100, "workhour", none⟩, some [15]⟩)] =
      .ok [("M", ⟨"M", 100, "workhour", none, [15]⟩)] := by
  refine ⟨?_, ?_, ?_⟩
  · exact register_resources_constraints.1 _ "M"
      ⟨some ⟨100, "batch", none⟩, none⟩ (by decide) rfl rfl
  · exact register_resources_constraints.2.1 _ "M"
      ⟨some ⟨100, "unit", none⟩, some [15]⟩ (by decide) (Or.inl rfl) rfl
  · exact register_resources_constraints.2.2 "M" 100 "workhour" none [15]
      (by decide) (by decide)

/-- C10: GanttDrawer.is_available returns False for every date strictly
outside the overall get_bounds span, whatever the resource's own vacation
list says; for a date inside the span it returns exactly the resource's own
availability. -/
theorem is_available_bounds :
    (∀ (g : GanttDrawer) (resource : String) (res : GResource)
      (d start stop : Int),
      g.get_bounds = some (start, stop) →
      g.find_resource resource = some res →
      (d < start ∨ stop < d) →
      g.is_available resource d = some false) ∧
    (∀ (g : GanttDrawer) (resource : String) (res : GResource)
      (d start stop : Int),
      g.get_bounds = some (start, stop) →
      g.find_resource resource = some res →
      start ≤ d → d ≤ stop →
      g.is_available resource d = some (res.is_available d)) := by
  constructor
  · intro g resource res d start stop hb hr hout
    simp only [GanttDrawer.is_available, hb, hr]
    rw [if_neg]
    intro ⟨h1, h2⟩
    rcases hout with h | h
    · exact absurd h1 (not_le.mpr h)
    · exact absurd h2 (not_le.mpr h)
  · intro g resource res d start stop hb hr h1 h2
    simp only [GanttDrawer.is_available, hb, hr]
    rw [if_pos ⟨h1, h2⟩]

/-- C10 witness: in the flat scenario (bounds 09-05..09-07), 09-09 is outside
the span and not among Martin's vacation dates, yet is_available is False;
09-06 is inside and reports Martin's own availability. -/
theorem is_available_bounds_witness :
    martin.is_available 9 = true ∧
    flatDrawer.is_available "Martin" 9 = some false ∧
    flatDrawer.is_available "Martin" 6 = some (martin.is_available 6) := by
  refine ⟨by decide, ?_, ?_⟩
  · exact is_available_bounds.1 flatDrawer "Martin" martin 9 5 7 rfl rfl
      (Or.inr (by norm_num))
  · exact is_available_bounds.2 flatDrawer "Martin" martin 6 5 7 rfl rfl
      (by norm_num) (by norm_num)

theorem budget_eq_filter_dense (g : GanttDrawer) :
    g.budget = (g.budgetDense).map
      (fun l => l.filter (fun r => decide (r.amount ≠ 0))) := by
  unfold GanttDrawer.budget GanttDrawer.budgetDense
  cases hb : g.get_bounds with
  | none => rfl
  | some bounds =>
    obtain ⟨start, stop⟩ := bounds
    apply optFlatMap_congr_map_filter
    intro pr _
    apply optFlatMap_congr_map_filter
    intro u _
    cases u with
    | milestone nm day => rfl
    | task t =>
      apply optFlatMap_congr_map_filter
      intro rname _
      cases g.taskDayAmounts t.name rname start ((stop - start + 1).toNat) with
      | none => rfl
      | some pairs =>
        simp only [Option.map]
        rw [List.filter_map (fun pa => mkRow pr.1 t.name rname pa.1 pa.2) pairs]
        rfl

theorem dense_row_shape :
    ∀ (g : GanttDrawer) (start stop : Int) (ds : List BudgetRow),
      g.get_bounds = some (start, stop) → g.budgetDense = some ds →
      ∀ r ∈ ds, r.category = "" ∧ r.subcategory = "" ∧
        start ≤ r.date ∧ r.date ≤ stop := by
  intro g start stop ds hb hd r hr
  simp only [GanttDrawer.budgetDense, hb] at hd
  obtain ⟨pr, _, zs1, hz1, hr1⟩ := optFlatMap_mem hd hr
  obtain ⟨u, _, zs2, hz2, hr2⟩ := optFlatMap_mem hz1 hr1
  cases u with
  | milestone nm day =>
    simp only [] at hz2
    cases hz2
    exact absurd hr2 (List.not_mem_nil _)
  | task t =>
    obtain ⟨rname, _, zs3, hz3, hr3⟩ := optFlatMap_mem hz2 hr2
    cases hta : g.taskDayAmounts t.name rname start ((stop - start + 1).toNat)
      with
    | none => rw [hta] at hz3; cases hz3
    | some pairs =>
      rw [hta] at hz3
      simp only [Option.map] at hz3
      injection hz3 with hz3
      subst hz3
      obtain ⟨pa, hpa, rfl⟩ := List.mem_map.mp hr3
      unfold GanttDrawer.taskDayAmounts at hta
      obtain ⟨i, hi, hfi⟩ := optMapM_mem hta hpa
      cases hgc : g.get_cost t.name rname (start + (i : Int)) with
      | none => rw [hgc] at hfi; cases hfi
      | some amt =>
        rw [hgc] at hfi
        simp only [Option.map] at hfi
        injection hfi with hfi
        subst hfi
        have hilt := List.mem_range.mp hi
        refine ⟨rfl, rfl, ?_, ?_⟩
        · show start ≤ start + (i : Int)
          omega
        · show start + (i : Int) ≤ stop
          omega

/-- C2: GanttDrawer.budget returns rows whose category and subcategory are
blank, whose amounts are all nonzero, whose dates all lie in the inclusive
span from the earliest project start to the latest project end, and which are
exactly the order-preserving nonzero filter of the dense encounter-order
enumeration (projects in order, tasks within project in order, resources
within task in order, dates ascending) that budgetDense spells out. -/
theorem budget_table_shape :
    ∀ (g : GanttDrawer) (start stop : Int) (rows : List BudgetRow),
      g.get_bounds = some (start, stop) → g.budget = some rows →
      (∃ ds, g.budgetDense = some ds ∧
        rows = ds.filter (fun r => decide (r.amount ≠ 0))) ∧
      (∀ r ∈ rows, r.category = "" ∧ r.subcategory = "" ∧ r.amount ≠ 0 ∧
        start ≤ r.date ∧ r.date ≤ stop) := by
  intro g start stop rows hb hbud
  have hfe := budget_eq_filter_dense g
  rw [hbud] at hfe
  cases hd : g.budgetDense with
  | none => rw [hd] at hfe; cases hfe
  | some ds =>
    rw [hd] at hfe
    simp only [Option.map] at hfe
    injection hfe with hfe
    refine ⟨⟨ds, rfl, hfe⟩, ?_⟩
    intro r hr
    rw [hfe] at hr
    have hmem := List.mem_filter.mp hr
    have hshape := dense_row_shape g start stop ds hb hd r hmem.1
    exact ⟨hshape.1, hshape.2.1, of_decide_eq_true hmem.2, hshape.2.2.1,
      hshape.2.2.2⟩

/-- C2 witness: the claim's conclusions on the flat scenario, whose budget is
the two-row table of the repository's own test. -/
theorem budget_table_shape_witness :
    flatDrawer.get_bounds = some (5, 7) ∧
    flatDrawer.budget = some
      [mkRow "Test1" "goals" "Martin" 6 (275 / 2),
        mkRow "Test1" "Env setup" "Martin" 7 550] ∧
    ((∃ ds, flatDrawer.budgetDense = some ds ∧
        [mkRow "Test1" "goals" "Martin" 6 (275 / 2),
          mkRow "Test1" "Env setup" "Martin" 7 550] =
          ds.filter (fun r => decide (r.amount ≠ 0))) ∧
      (∀ r ∈ [mkRow "Test1" "goals" "Martin" 6 (275 / 2),
          mkRow "Test1" "Env setup" "Martin" 7 550],
        r.category = "" ∧ r.subcategory = "" ∧ r.amount ≠ 0 ∧
          5 ≤ r.date ∧ r.date ≤ 7)) := by
  refine ⟨rfl, by with_unfolding_all decide, ?_⟩
  exact budget_table_shape flatDrawer 5 7 _ rfl (by with_unfolding_all decide)

/-- C1: GanttDrawer.get_cost agrees with the spec's §4.6 product formula
(unit rate at ceil(duration) × time_fraction × usage × availability ×
activity × usage-membership) for every task, resource and date on which the
components are defined; and in the §8 scenario, get_cost("goals", "Martin",
2022-09-06) is 137.5 = 275/2 while every other day yields zero. -/
theorem get_cost_matches_spec :
    (∀ (g : GanttDrawer) (task resource : String) (d : Int) (t : GTask)
      (c u : ℚ) (b : Bool),
      g.find_task task = some t → 0 < t.duration →
      g.convert resource (some ((⌈t.duration⌉ : Int) : ℚ)) = some c →
      g.get_usage task resource = some u →
      g.is_available resource d = some b →
      g.get_cost task resource d = g.spec_cost task resource d) ∧
    flatDrawer.get_cost "goals" "Martin" 6 = some (275 / 2) ∧
    (∀ d : Int, d ≠ 6 → flatDrawer.get_cost "goals" "Martin" d = some 0) := by
  refine ⟨?_, by with_unfolding_all decide, ?_⟩
  · intro g task resource d t c u b hT hdur hconv husage havail
    have hus : g.is_using task resource = some (t.is_using resource) := by
      simp [GanttDrawer.is_using, hT]
    have hact : g.is_active task d = some (t.is_active d) := by
      simp [GanttDrawer.is_active, hT]
    simp only [GanttDrawer.get_cost, GanttDrawer.spec_cost, spec_time_fraction,
      hT, hconv, husage, havail, hus, hact]
    rw [if_neg (ne_of_gt hdur)]
    by_cases hld : ⌊t.duration⌋ < t.start_date + ⌊t.duration⌋ - d
    · rw [if_pos hld, if_pos hld]
      simp
    · rw [if_neg hld, if_neg hld]
      by_cases hz : t.start_date + ⌊t.duration⌋ - d = 0
      · rw [if_neg (not_not.mpr hz), if_pos hz]
        congr 1
        ring
      · rw [if_pos hz, if_neg hz]
        congr 1
        ring
  · intro d hd
    have hT : flatDrawer.find_task "goals" = some goalsTask := rfl
    have hfloor : ⌊(1 / 4 : ℚ)⌋ = 0 := by with_unfolding_all decide
    have hbounds : flatDrawer.get_bounds = some (5, 7) := rfl
    have hres : flatDrawer.find_resource "Martin" = some martin := rfl
    have havail : flatDrawer.is_available "Martin" d =
        some (if 5 ≤ d ∧ d ≤ 7 then martin.is_available d else false) := by
      simp only [GanttDrawer.is_available, hbounds, hres]
      split_ifs <;> rfl
    have hconv : flatDrawer.convert "Martin"
        (some ((⌈(1 / 4 : ℚ)⌉ : Int) : ℚ)) = some 550 := by
      with_unfolding_all decide
    have husage : flatDrawer.get_usage "goals" "Martin" = some 1 := by
      with_unfolding_all decide
    have husing : flatDrawer.is_using "goals" "Martin" = some true := rfl
    have hactive : flatDrawer.is_active "goals" d =
        some (goalsTask.is_active d) := by
      simp [GanttDrawer.is_active, hT]
    have hactfalse : goalsTask.is_active d = false := by
      simp only [GTask.is_active, goalsTask, decide_eq_false_iff_not]
      intro ⟨h1, h2⟩
      exact hd (le_antisymm h2 h1)
    simp only [GanttDrawer.get_cost, hT, goalsTask, hfloor]
    rw [if_neg (by norm_num : ¬ (1 / 4 : ℚ) = 0)]
    rcases lt_or_gt_of_ne hd with h | h
    · rw [if_pos (by omega : (0 : Int) < 6 + 0 - d)]
    · rw [if_neg (by omega : ¬ (0 : Int) < 6 + 0 - d)]
      rw [if_pos (by omega : (6 : Int) + 0 - d ≠ 0)]
      rw [show flatDrawer.convert "Martin" (some ((⌈(1 / 4 : ℚ)⌉ : Int) : ℚ)) =
        some 550 from hconv]
      rw [show flatDrawer.get_usage "goals" "Martin" = some 1 from husage]
      rw [havail, husing]
      rw [show flatDrawer.is_active "goals" d = some false from
        hactfalse ▸ hactive]
      simp [boolInd]

/-- C1 witness: the refinement theorem applied in the §8 scenario on
2022-09-06, plus the zero conclusion on a day outside the active window. -/
theorem get_cost_matches_spec_witness :
    flatDrawer.find_task "goals" = some goalsTask ∧
    (0 : ℚ) < goalsTask.duration ∧
    flatDrawer.get_cost "goals" "Martin" 6 =
      flatDrawer.spec_cost "goals" "Martin" 6 ∧
    flatDrawer.get_cost "goals" "Martin" 9 = some 0 := by
  refine ⟨rfl, by norm_num [goalsTask], ?_, ?_⟩
  · exact get_cost_matches_spec.1 flatDrawer "goals" "Martin" 6 goalsTask
      550 1 true rfl (by norm_num [goalsTask]) (by with_unfolding_all decide)
      (by with_unfolding_all decide) (by with_unfolding_all decide)
  · exact get_cost_matches_spec.2.2 9 (by norm_num)

end MdPlanning
